import Mathlib

/-!
Shallow embedding of the strategy-instance runtime of this repository:

* `StrategyTemplate` (src/vnpy_portfoliostrategy/template.py) becomes the
  record `StrategyState` together with explicit state-passing functions,
  one per method.  Python `dict[str, int]` becomes an association list
  `List (String × Int)`; Python `set[str]` becomes a duplicate-free
  `List String`; Python `defaultdict(int)` reads a missing key as `0`.
* `StopOrder` / `StopOrderStatus` (src/vnpy_novastrategy/base.py) become
  a record and an inductive status type.
* Calls into the external engine are recorded in an explicit `EngineCall`
  log; values the engine returns (the order-identifier lists) are passed
  in as arguments.

Trade volumes and positions are modelled as `Int`, following the declared
type `pos_data: dict[str, int]` of the source; prices as `Rat`.
-/

/-- vnpy `Direction` enum members used by this code. -/
inductive Direction where
  | LONG
  | SHORT
deriving DecidableEq, Repr

/-- vnpy `Offset` enum members used by this code. -/
inductive Offset where
  | OPEN
  | CLOSE
deriving DecidableEq, Repr

/-- vnpy `TradeData`, restricted to the fields `update_trade` reads. -/
structure TradeData where
  vt_symbol : String
  direction : Direction
  volume : Int
deriving DecidableEq, Repr

/-- vnpy `OrderData`, restricted to the fields `on_order` reads: the
identifier and the result of `order.is_active()`. -/
structure OrderData where
  vt_orderid : String
  is_active : Bool
deriving DecidableEq, Repr

/-- Look a key up in an association list modelling a Python `dict`
(keys are unique, so first match is the entry). -/
def dictLookup : List (String × Int) → String → Option Int
  | [], _ => none
  | (k', v) :: rest, k => if k' = k then some v else dictLookup rest k

/-- `d[k] = v` on a Python `dict`: overwrite the entry if the key is
present, append it otherwise. -/
def dictSet : List (String × Int) → String → Int → List (String × Int)
  | [], k, v => [(k, v)]
  | (k', v') :: rest, k, v =>
      if k' = k then (k, v) :: rest else (k', v') :: dictSet rest k v

/-- Reading `d[k]` on a `defaultdict(int)`: a missing key reads as `0`. -/
def ddGet (m : List (String × Int)) (k : String) : Int :=
  (dictLookup m k).getD 0

/-- The instance state of `StrategyTemplate` (template.py `__init__`,
lines 32-49).  The engine reference is external; dynamic parameter
attributes (`setattr`) live in a separate attribute store, see
`update_setting`.  The field `variables_` models the Python attribute
`variables` (that word is reserved in Lean); it is an `Option` because
the value Python assigns on line 46 is the result of `list.extend`,
which is `None`. -/
structure StrategyState where
  strategy_name : String
  vt_symbols : List String
  inited : Bool
  trading : Bool
  pos_data : List (String × Int)
  active_orderids : List String
  variables_ : Option (List String)
deriving DecidableEq, Repr

/-- Python's `list.extend` mutates its receiver in place and returns
`None`; used as an expression (template.py line 46,
`["inited", "trading", "pos_data"].extend(self.variables)`), its value
is `None`.  The mutated temporary list is discarded. -/
def pyListExtendValue (_receiver _arg : List String) : Option (List String) :=
  none

/-- `StrategyTemplate.__init__` (template.py lines 22-49): status flags
start false, the position map empty, the active-order set empty, and
`variables` receives the return value of `list.extend`.
(`update_setting`, called on line 49, acts on the separate attribute
store and is modelled by `update_setting` below.) -/
def strategyInit (strategy_name : String) (vt_symbols : List String)
    (classVariables : List String) : StrategyState :=
  { strategy_name := strategy_name
    vt_symbols := vt_symbols
    inited := false
    trading := false
    pos_data := []
    active_orderids := []
    variables_ := pyListExtendValue ["inited", "trading", "pos_data"] classVariables }

/-- `StrategyTemplate.update_trade` (template.py lines 126-133), the
position-map mutation: `self.pos_data[trade.vt_symbol] += trade.volume`
for a long trade, `-=` otherwise.  (`on_trade`, invoked afterwards, is a
no-op in the template and does not touch `pos_data`.) -/
def update_trade (s : StrategyState) (t : TradeData) : StrategyState :=
  if t.direction = Direction.LONG then
    { s with pos_data := dictSet s.pos_data t.vt_symbol (ddGet s.pos_data t.vt_symbol + t.volume) }
  else
    { s with pos_data := dictSet s.pos_data t.vt_symbol (ddGet s.pos_data t.vt_symbol - t.volume) }

/-- Deliver a sequence of trade callbacks in order. -/
def runTrades (s : StrategyState) (ts : List TradeData) : StrategyState :=
  ts.foldl update_trade s

/-- The signed volume of a trade: long adds, short subtracts. -/
def signedVolume (t : TradeData) : Int :=
  if t.direction = Direction.LONG then t.volume else -t.volume

/-- Sum of the signed volumes of the trades on instrument key `k`. -/
def signedSum (k : String) : List TradeData → Int
  | [] => 0
  | t :: ts => (if t.vt_symbol = k then signedVolume t else 0) + signedSum k ts

theorem dictLookup_dictSet (m : List (String × Int)) (k k' : String) (v : Int) :
    dictLookup (dictSet m k v) k' = if k' = k then some v else dictLookup m k' := by
  induction m with
  | nil =>
      by_cases h : k' = k
      · subst h; simp [dictSet, dictLookup]
      · have h' : ¬ k = k' := fun hc => h hc.symm
        simp [dictSet, dictLookup, h, h']
  | cons p rest ih =>
      obtain ⟨pk, pv⟩ := p
      by_cases hpk : pk = k
      · subst hpk
        by_cases h : k' = pk
        · subst h; simp [dictSet, dictLookup]
        · have h' : ¬ pk = k' := fun hc => h hc.symm
          simp [dictSet, dictLookup, h, h']
      · by_cases hpkk : pk = k'
        · subst hpkk
          simp [dictSet, hpk, dictLookup, fun hc : pk = k => hpk hc]
        · simp [dictSet, hpk, dictLookup, hpkk, ih]

theorem ddGet_update_trade (s : StrategyState) (t : TradeData) (k : String) :
    ddGet (update_trade s t).pos_data k =
      ddGet s.pos_data k + (if t.vt_symbol = k then signedVolume t else 0) := by
  by_cases hd : t.direction = Direction.LONG <;> by_cases hk : t.vt_symbol = k
  · subst hk; simp [update_trade, hd, ddGet, dictLookup_dictSet, signedVolume]
  · have hk' : ¬ k = t.vt_symbol := fun h => hk h.symm
    simp [update_trade, hd, ddGet, dictLookup_dictSet, hk, hk']
  · subst hk
    simp [update_trade, hd, ddGet, dictLookup_dictSet, signedVolume, Int.sub_eq_add_neg]
  · have hk' : ¬ k = t.vt_symbol := fun h => hk h.symm
    simp [update_trade, hd, ddGet, dictLookup_dictSet, hk, hk']

theorem update_trade_frame (s : StrategyState) (t : TradeData) (k : String)
    (h : k ≠ t.vt_symbol) :
    dictLookup (update_trade s t).pos_data k = dictLookup s.pos_data k := by
  by_cases hd : t.direction = Direction.LONG <;>
    simp [update_trade, hd, dictLookup_dictSet, h]

theorem ddGet_runTrades (ts : List TradeData) (s : StrategyState) (k : String) :
    ddGet (runTrades s ts).pos_data k = ddGet s.pos_data k + signedSum k ts := by
  induction ts generalizing s with
  | nil => simp [runTrades, signedSum]
  | cons t ts ih =>
      have : runTrades s (t :: ts) = runTrades (update_trade s t) ts := rfl
      rw [this, ih, ddGet_update_trade]
      simp [signedSum]; ring

/-- C1: For every sequence of trade events, the position recorded for
instrument key K moves by exactly the sum of the signed volumes of the
trades on K (long adds, short subtracts), regardless of the interleaved
trades on other instruments; and each single `update_trade` leaves the
position of every other instrument key untouched (it edits one entry, it
never recomputes the map). -/
theorem update_trade_position_reconciles (ts : List TradeData) (s : StrategyState) (k : String) :
    (ddGet (runTrades s ts).pos_data k = ddGet s.pos_data k + signedSum k ts) ∧
    (∀ t : TradeData, ∀ k' : String, k' ≠ t.vt_symbol →
      dictLookup (update_trade s t).pos_data k' = dictLookup s.pos_data k') := by
  exact ⟨ddGet_runTrades ts s k, fun t k' h => update_trade_frame s t k' h⟩

/-- Witness for C1 at a concrete input: two interleaved instruments. -/
theorem update_trade_position_reconciles_witness :
    (ddGet (runTrades (strategyInit "s" [] [])
        [⟨"A.X", Direction.LONG, 3⟩, ⟨"B.Y", Direction.LONG, 7⟩, ⟨"A.X", Direction.SHORT, 1⟩]).pos_data "A.X"
      = ddGet (strategyInit "s" [] []).pos_data "A.X" +
        signedSum "A.X" [⟨"A.X", Direction.LONG, 3⟩, ⟨"B.Y", Direction.LONG, 7⟩, ⟨"A.X", Direction.SHORT, 1⟩]) ∧
    ("B.Y" : String) ≠ "A.X" ∧
    dictLookup (update_trade (strategyInit "s" [] []) ⟨"A.X", Direction.LONG, 3⟩).pos_data "B.Y"
      = dictLookup (strategyInit "s" [] []).pos_data "B.Y" := by
  refine ⟨(update_trade_position_reconciles _ _ _).1, by decide, ?_⟩
  exact (update_trade_position_reconciles
    ([] : List TradeData) (strategyInit "s" [] []) "A.X").2
    ⟨"A.X", Direction.LONG, 3⟩ "B.Y" (by decide)

/-- Membership test and removal on the Python `set` `active_orderids`,
modelled as a duplicate-free list.  `set.add`: no-op when the element is
already present. -/
def setAdd (s : List String) (x : String) : List String :=
  if x ∈ s then s else s ++ [x]

/-- `set.update(iterable)`: add every element of the iterable. -/
def setUpdate (s : List String) (xs : List String) : List String :=
  xs.foldl setAdd s

/-- The state-update portion of `on_order` (template.py lines 137-140):
when the order is no longer active and its identifier is tracked, remove
the identifier from `active_orderids`; otherwise leave the state alone.
The guard makes removal of a non-member a no-op, never an error. -/
def on_order_update_step (s : StrategyState) (o : OrderData) : StrategyState :=
  if o.is_active = false ∧ o.vt_orderid ∈ s.active_orderids then
    { s with active_orderids := s.active_orderids.erase o.vt_orderid }
  else s

/-- Deliver a sequence of order-status callbacks (set effect only). -/
def runOrders (s : StrategyState) (os : List OrderData) : StrategyState :=
  os.foldl on_order_update_step s

theorem on_order_update_step_nodup (s : StrategyState) (o : OrderData)
    (h : s.active_orderids.Nodup) :
    (on_order_update_step s o).active_orderids.Nodup := by
  by_cases hc : o.is_active = false ∧ o.vt_orderid ∈ s.active_orderids
  · simp only [on_order_update_step, if_pos hc]
    exact h.erase o.vt_orderid
  · simp only [on_order_update_step, if_neg hc]
    exact h

theorem mem_runOrders (os : List OrderData) (s : StrategyState) (id_ : String)
    (hnd : s.active_orderids.Nodup) :
    id_ ∈ (runOrders s os).active_orderids ↔
      id_ ∈ s.active_orderids ∧
        ∀ o ∈ os, ¬(o.is_active = false ∧ o.vt_orderid = id_) := by
  induction os generalizing s with
  | nil => simp [runOrders]
  | cons o os ih =>
      have hstep : runOrders s (o :: os) = runOrders (on_order_update_step s o) os := rfl
      rw [hstep, ih (on_order_update_step s o) (on_order_update_step_nodup s o hnd)]
      rw [List.forall_mem_cons]
      by_cases ha : o.is_active = false
      · by_cases hm : o.vt_orderid ∈ s.active_orderids
        · have he : (on_order_update_step s o).active_orderids =
              s.active_orderids.erase o.vt_orderid := by
            simp [on_order_update_step, ha, hm]
          rw [he, hnd.mem_erase_iff]
          constructor
          · rintro ⟨⟨hne, hmem⟩, hrest⟩
            exact ⟨hmem, fun hand => hne hand.2.symm, hrest⟩
          · rintro ⟨hmem, hno, hrest⟩
            exact ⟨⟨fun hid => hno ⟨ha, hid.symm⟩, hmem⟩, hrest⟩
        · have he : on_order_update_step s o = s := by
            simp [on_order_update_step, ha, hm]
          rw [he]
          constructor
          · rintro ⟨hmem, hrest⟩
            refine ⟨hmem, ?_, hrest⟩
            rintro ⟨-, hid⟩
            exact hm (by rw [hid]; exact hmem)
          · rintro ⟨hmem, -, hrest⟩
            exact ⟨hmem, hrest⟩
      · have he : on_order_update_step s o = s := by
          simp [on_order_update_step, ha]
        rw [he]
        constructor
        · rintro ⟨hmem, hrest⟩
          exact ⟨hmem, fun hand => ha hand.1, hrest⟩
        · rintro ⟨hmem, -, hrest⟩
          exact ⟨hmem, hrest⟩

/-- C2: over any sequence of order-status callbacks, a tracked identifier
stays in the active-order set exactly until the first terminal
(non-active) callback carrying it, after which it is out for good; a
callback for an untracked identifier, or a non-terminal callback, leaves
the state unchanged (a no-op, not an error). -/
theorem on_order_active_set_removal (s : StrategyState) (os : List OrderData) (id_ : String) :
    (s.active_orderids.Nodup →
      (id_ ∈ (runOrders s os).active_orderids ↔
        id_ ∈ s.active_orderids ∧
          ∀ o ∈ os, ¬(o.is_active = false ∧ o.vt_orderid = id_))) ∧
    (∀ o : OrderData, o.vt_orderid ∉ s.active_orderids → on_order_update_step s o = s) ∧
    (∀ o : OrderData, o.is_active = true → on_order_update_step s o = s) := by
  refine ⟨fun hnd => mem_runOrders os s id_ hnd, ?_, ?_⟩
  · intro o ho
    simp [on_order_update_step, ho]
  · intro o ho
    simp [on_order_update_step, ho]

/-- Witness for C2: identifier "A" is tracked, two terminal callbacks
for it arrive, and the membership characterisation evaluates. -/
theorem on_order_active_set_removal_witness :
    ({ strategyInit "s" [] [] with active_orderids := ["A"] } : StrategyState).active_orderids.Nodup ∧
    ("A" ∈ (runOrders { strategyInit "s" [] [] with active_orderids := ["A"] }
        [⟨"A", false⟩, ⟨"A", false⟩]).active_orderids ↔
      "A" ∈ ({ strategyInit "s" [] [] with active_orderids := ["A"] } : StrategyState).active_orderids ∧
        ∀ o ∈ ([⟨"A", false⟩, ⟨"A", false⟩] : List OrderData),
          ¬(o.is_active = false ∧ o.vt_orderid = "A")) :=
  ⟨by decide,
    (on_order_active_set_removal { strategyInit "s" [] [] with active_orderids := ["A"] }
      [⟨"A", false⟩, ⟨"A", false⟩] "A").1 (by decide)⟩

/-- `on_order` as the source defines it (template.py lines 135-142): the
class-level redefinition shadows the virtual hook of line 122, so the
trailing `self.on_order(order)` resolves to this same method and the
call recurses into itself with the (already updated) state.  The `Nat`
argument is fuel bounding the recursion depth (Python's recursion
limit); `none` means the call is still recursing when the fuel runs out. -/
def on_order_run : Nat → StrategyState → OrderData → Option StrategyState
  | 0, _, _ => none
  | n + 1, s, o => on_order_run n (on_order_update_step s o) o

/-- C3 (code bug): the engine-facing order-update entry point never
returns — for every finite recursion depth the self-call is still
pending, so it cannot terminate, and the user-overridable hook body
(line 122, shadowed) is never reached. -/
theorem on_order_never_returns (n : Nat) (s : StrategyState) (o : OrderData) :
    on_order_run n s o = none := by
  induction n generalizing s with
  | zero => rfl
  | succ n ih => exact ih (on_order_update_step s o)

/-- A call the strategy makes into the external engine. -/
inductive EngineCall where
  | sendOrder (strategy_name vt_symbol : String) (direction : Direction) (offset : Offset)
      (price volume : Rat) (lock net : Bool)
  | cancelOrder (strategy_name vt_orderid : String)
deriving DecidableEq, Repr

/-- `StrategyTemplate.send_order` (template.py lines 160-180): when
`trading` is false, return `[]` at once — no engine call, no state
change.  Otherwise delegate to the engine (one `sendOrder` call, whose
returned identifier list `engineIds` is an input of the model) and add
every returned identifier to the active-order set before returning.
Result: (returned identifiers, new state, engine-call log). -/
def send_order (s : StrategyState) (vt_symbol : String) (direction : Direction)
    (offset : Offset) (price volume : Rat) (lock net : Bool) (engineIds : List String) :
    List String × StrategyState × List EngineCall :=
  if s.trading = false then ([], s, [])
  else (engineIds,
    { s with active_orderids := setUpdate s.active_orderids engineIds },
    [EngineCall.sendOrder s.strategy_name vt_symbol direction offset price volume lock net])

/-- `StrategyTemplate.cancel_order` (template.py lines 182-185): delegate
to the engine only while `trading` is true; the engine call is recorded,
the local state is untouched. -/
def cancel_order (s : StrategyState) (vt_orderid : String) :
    StrategyState × List EngineCall :=
  if s.trading then (s, [EngineCall.cancelOrder s.strategy_name vt_orderid])
  else (s, [])

/-- `StrategyTemplate.cancel_all` (template.py lines 187-190): iterate
`self.active_orderids` (the live set — the source takes no copy) and call
`cancel_order` for each member, accumulating the engine-call log. -/
def cancel_all (s : StrategyState) : StrategyState × List EngineCall :=
  s.active_orderids.foldl
    (fun acc vt_orderid =>
      ((cancel_order acc.1 vt_orderid).1, acc.2 ++ (cancel_order acc.1 vt_orderid).2))
    (s, [])

theorem cancel_all_foldl_not_trading (l : List String) (s : StrategyState)
    (cs : List EngineCall) (h : s.trading = false) :
    l.foldl
      (fun acc vt_orderid =>
        ((cancel_order acc.1 vt_orderid).1, acc.2 ++ (cancel_order acc.1 vt_orderid).2))
      (s, cs) = (s, cs) := by
  induction l generalizing cs with
  | nil => rfl
  | cons x l ih =>
      have hco : cancel_order s x = (s, []) := by simp [cancel_order, h]
      simp only [List.foldl_cons, hco]
      simpa using ih cs

theorem cancel_all_foldl_trading (l : List String) (s : StrategyState)
    (cs : List EngineCall) (h : s.trading = true) :
    l.foldl
      (fun acc vt_orderid =>
        ((cancel_order acc.1 vt_orderid).1, acc.2 ++ (cancel_order acc.1 vt_orderid).2))
      (s, cs) = (s, cs ++ l.map (EngineCall.cancelOrder s.strategy_name)) := by
  induction l generalizing cs with
  | nil => simp
  | cons x l ih =>
      have hco : cancel_order s x = (s, [EngineCall.cancelOrder s.strategy_name x]) := by
        simp [cancel_order, h]
      simp only [List.foldl_cons, hco, List.map_cons]
      rw [ih (cs ++ [EngineCall.cancelOrder s.strategy_name x]) ]
      simp

/-- C4: while the trading flag is false — as it is in the state produced
by construction — `send_order` returns the empty identifier sequence,
issues no engine call and leaves the state (in particular the
active-order set) unchanged, and `cancel_order` / `cancel_all` issue no
engine cancel requests. -/
theorem trading_false_suppresses_commands (s : StrategyState)
    (vt_symbol : String) (direction : Direction) (offset : Offset)
    (price volume : Rat) (lock net : Bool) (engineIds : List String)
    (vt_orderid : String) (h : s.trading = false) :
    send_order s vt_symbol direction offset price volume lock net engineIds = ([], s, []) ∧
    cancel_order s vt_orderid = (s, []) ∧
    cancel_all s = (s, []) := by
  refine ⟨by simp [send_order, h], by simp [cancel_order, h], ?_⟩
  exact cancel_all_foldl_not_trading s.active_orderids s [] h

/-- Witness for C4 on the freshly constructed state (both flags false)
with a nonempty tracked set for `cancel_all`. -/
theorem trading_false_suppresses_commands_witness :
    ({ strategyInit "s" ["A.X"] [] with active_orderids := ["O1"] } : StrategyState).trading = false ∧
    (send_order { strategyInit "s" ["A.X"] [] with active_orderids := ["O1"] }
        "A.X" Direction.LONG Offset.OPEN 10 1 false false ["id1"]
      = ([], { strategyInit "s" ["A.X"] [] with active_orderids := ["O1"] }, []) ∧
    cancel_order { strategyInit "s" ["A.X"] [] with active_orderids := ["O1"] } "O1"
      = ({ strategyInit "s" ["A.X"] [] with active_orderids := ["O1"] }, []) ∧
    cancel_all { strategyInit "s" ["A.X"] [] with active_orderids := ["O1"] }
      = ({ strategyInit "s" ["A.X"] [] with active_orderids := ["O1"] }, [])) :=
  ⟨rfl, trading_false_suppresses_commands
    { strategyInit "s" ["A.X"] [] with active_orderids := ["O1"] }
    "A.X" Direction.LONG Offset.OPEN 10 1 false false ["id1"] "O1" rfl⟩

/-- C7 (supporting theorem for the code-bug record): in the sequential
model — no callback runs between the iterations — `cancel_all` while
trading issues exactly one cancel request per identifier in the
active-order set at call time, in iteration order, and changes no state.
The snapshotting the claim additionally asserts is absent from the
source: line 189 iterates the live `self.active_orderids` directly. -/
theorem cancel_all_one_cancel_per_member (s : StrategyState) (h : s.trading = true) :
    cancel_all s = (s, s.active_orderids.map (EngineCall.cancelOrder s.strategy_name)) := by
  have := cancel_all_foldl_trading s.active_orderids s [] h
  simpa [cancel_all] using this

/-- Witness for C7's supporting theorem on a two-member active set. -/
theorem cancel_all_one_cancel_per_member_witness :
    ({ strategyInit "s" [] [] with trading := true, active_orderids := ["A", "B"] } : StrategyState).trading = true ∧
    cancel_all { strategyInit "s" [] [] with trading := true, active_orderids := ["A", "B"] }
      = ({ strategyInit "s" [] [] with trading := true, active_orderids := ["A", "B"] },
         [EngineCall.cancelOrder "s" "A", EngineCall.cancelOrder "s" "B"]) :=
  ⟨rfl, cancel_all_one_cancel_per_member
    { strategyInit "s" [] [] with trading := true, active_orderids := ["A", "B"] } rfl⟩

/-- Look a name up in the `setting` dict (`name in setting` /
`setting[name]`); values are opaque, so the value type is a parameter. -/
def settingLookup {α : Type} : List (String × α) → String → Option α
  | [], _ => none
  | (k, v) :: rest, name => if k = name then some v else settingLookup rest name

/-- One iteration of `update_setting`'s loop (template.py lines 53-55):
`if name in setting: setattr(self, name, setting[name])`.  The
instance's dynamic attributes are modelled as a total map from attribute
names to values. -/
def applyParam {α : Type} (setting : List (String × α)) (a : String → α)
    (name : String) : String → α :=
  match settingLookup setting name with
  | some v => fun n => if n = name then v else a n
  | none => a

/-- `StrategyTemplate.update_setting` (template.py lines 51-55): for each
declared parameter name, in order, overwrite the attribute when the
setting carries that name.  Also invoked by `__init__` (line 49). -/
def update_setting {α : Type} (parameters : List String)
    (setting : List (String × α)) (attrs : String → α) : String → α :=
  parameters.foldl (applyParam setting) attrs

theorem applyParam_ne {α : Type} (setting : List (String × α)) (a : String → α)
    (name n : String) (h : n ≠ name) : applyParam setting a name n = a n := by
  unfold applyParam
  cases hl : settingLookup setting name <;> simp [h]

theorem applyParam_none {α : Type} (setting : List (String × α)) (a : String → α)
    (name n : String) (h : settingLookup setting n = none) :
    applyParam setting a name n = a n := by
  by_cases hq : n = name
  · subst hq
    unfold applyParam
    rw [h]
  · exact applyParam_ne setting a name n hq

theorem applyParam_some {α : Type} (setting : List (String × α)) (a : String → α)
    (name : String) (v : α) (h : settingLookup setting name = some v) :
    applyParam setting a name name = v := by
  unfold applyParam
  rw [h]
  simp

/-- C8: applying a setting writes exactly the attributes that are both
declared parameters and keys of the setting, each receiving the
setting's value; a name outside the declared parameter list is never
written (unknown setting keys are ignored without error), and a declared
parameter absent from the setting keeps its old value. -/
theorem update_setting_exact_writes {α : Type} (parameters : List String)
    (setting : List (String × α)) (attrs : String → α) (n : String) :
    (n ∉ parameters → update_setting parameters setting attrs n = attrs n) ∧
    (settingLookup setting n = none → update_setting parameters setting attrs n = attrs n) ∧
    (∀ v : α, n ∈ parameters → settingLookup setting n = some v →
      update_setting parameters setting attrs n = v) := by
  induction parameters generalizing attrs with
  | nil =>
      refine ⟨fun _ => rfl, fun _ => rfl, fun v h => absurd h (List.not_mem_nil n)⟩
  | cons q ps ih =>
      have hfold : update_setting (q :: ps) setting attrs =
          update_setting ps setting (applyParam setting attrs q) := rfl
      refine ⟨?_, ?_, ?_⟩
      · intro hn
        rw [hfold, (ih (applyParam setting attrs q)).1 (fun hc => hn (List.mem_cons_of_mem q hc))]
        exact applyParam_ne setting attrs q n (fun hc => hn (hc ▸ List.mem_cons_self q ps))
      · intro hnone
        rw [hfold, (ih (applyParam setting attrs q)).2.1 hnone]
        exact applyParam_none setting attrs q n hnone
      · intro v hn hsome
        rcases List.mem_cons.mp hn with rfl | hmem
        · by_cases hps : n ∈ ps
          · rw [hfold]
            exact (ih (applyParam setting attrs n)).2.2 v hps hsome
          · rw [hfold, (ih (applyParam setting attrs n)).1 hps]
            exact applyParam_some setting attrs n v hsome
        · rw [hfold]
          exact (ih (applyParam setting attrs q)).2.2 v hmem hsome

/-- Witness for C8: parameters ["fast", "slow"], setting assigns "fast"
and carries the unknown key "other"; "slow" is untouched, "other" is
ignored, "fast" receives 5. -/
theorem update_setting_exact_writes_witness :
    (("other" : String) ∉ ["fast", "slow"] ∧
      update_setting ["fast", "slow"] [("fast", (5 : Int)), ("other", 9)] (fun _ => 0) "other" = 0) ∧
    (settingLookup [("fast", (5 : Int)), ("other", 9)] "slow" = none ∧
      update_setting ["fast", "slow"] [("fast", (5 : Int)), ("other", 9)] (fun _ => 0) "slow" = 0) ∧
    (("fast" : String) ∈ ["fast", "slow"] ∧
      settingLookup [("fast", (5 : Int)), ("other", 9)] "fast" = some 5 ∧
      update_setting ["fast", "slow"] [("fast", (5 : Int)), ("other", 9)] (fun _ => 0) "fast" = 5) :=
  ⟨⟨by decide,
      (update_setting_exact_writes ["fast", "slow"] [("fast", (5 : Int)), ("other", 9)]
        (fun _ => 0) "other").1 (by decide)⟩,
   ⟨by decide,
      (update_setting_exact_writes ["fast", "slow"] [("fast", (5 : Int)), ("other", 9)]
        (fun _ => 0) "slow").2.1 (by decide)⟩,
   ⟨by decide, by decide,
      (update_setting_exact_writes ["fast", "slow"] [("fast", (5 : Int)), ("other", 9)]
        (fun _ => 0) "fast").2.2 5 (by decide) (by decide)⟩⟩

/-- `StrategyTemplate.get_variables` (template.py lines 72-77): iterate
`self.variables` and read each named attribute.  The attribute read is
abstracted as a function argument; when the `variables` attribute holds
`None` — see `strategyInit` — the `for` statement raises a `TypeError`,
modelled as `none`. -/
def get_variables {α : Type} (s : StrategyState) (getattr : String → α) :
    Option (List (String × α)) :=
  match s.variables_ with
  | none => none
  | some names => some (names.map (fun n => (n, getattr n)))

/-- C5 (code bug): `__init__` line 46 assigns the return value of
`list.extend` — which is `None` — to `self.variables`, so after
construction the declared variable list is not the built-ins followed by
the strategy-specific names (it is no list at all), and `get_variables`
cannot build a snapshot: iterating `None` fails. -/
theorem init_variables_is_none (strategy_name : String) (vt_symbols : List String)
    (classVariables : List String) (α : Type) (getattr : String → α) :
    (strategyInit strategy_name vt_symbols classVariables).variables_ = none ∧
    (strategyInit strategy_name vt_symbols classVariables).variables_ ≠
      some (["inited", "trading", "pos_data"] ++ classVariables) ∧
    get_variables (strategyInit strategy_name vt_symbols classVariables) getattr = none :=
  ⟨rfl, fun h => Option.noConfusion h, rfl⟩

/-- `StrategyTemplate.get_pos` (template.py lines 192-194):
`self.pos_data.get(vt_symbol, 0)`.  `dict.get` reads without writing —
on a `defaultdict` it does not invoke the default factory — so the
second component returns the state unchanged. -/
def get_pos (s : StrategyState) (vt_symbol : String) : Int × StrategyState :=
  ((dictLookup s.pos_data vt_symbol).getD 0, s)

theorem dictLookup_runTrades_none (ts : List TradeData) (s : StrategyState) (k : String)
    (h0 : dictLookup s.pos_data k = none) (h : ∀ t ∈ ts, t.vt_symbol ≠ k) :
    dictLookup (runTrades s ts).pos_data k = none := by
  induction ts generalizing s with
  | nil => exact h0
  | cons t ts ih =>
      have hk : k ≠ t.vt_symbol := Ne.symm (h t (List.mem_cons_self t ts))
      have hframe := update_trade_frame s t k hk
      exact ih (update_trade s t) (hframe.trans h0) (fun t' ht' => h t' (List.mem_cons_of_mem t ht'))

/-- C9: after any trade history from a fresh position map, `get_pos`
returns the recorded quantity (the signed-volume sum for its key), it
returns 0 for a key no trade ever touched — such a key has no entry in
the map — and it hands the state back unchanged (no entry is inserted). -/
theorem get_pos_reads_without_insert (s : StrategyState) (ts : List TradeData) (k : String) :
    (get_pos (runTrades s ts) k).2 = runTrades s ts ∧
    (s.pos_data = [] →
      (get_pos (runTrades s ts) k).1 = signedSum k ts ∧
      ((∀ t ∈ ts, t.vt_symbol ≠ k) →
        dictLookup (runTrades s ts).pos_data k = none ∧
        (get_pos (runTrades s ts) k).1 = 0)) := by
  refine ⟨rfl, fun hpos => ⟨?_, fun hno => ?_⟩⟩
  · have h := ddGet_runTrades ts s k
    have h0 : ddGet s.pos_data k = 0 := by rw [hpos]; rfl
    rw [h0, zero_add] at h
    exact h
  · have hnone : dictLookup (runTrades s ts).pos_data k = none := by
      refine dictLookup_runTrades_none ts s k ?_ hno
      rw [hpos]
      rfl
    refine ⟨hnone, ?_⟩
    show (dictLookup (runTrades s ts).pos_data k).getD 0 = 0
    rw [hnone]
    rfl

/-- Witness for C9: one trade on "A.X", queried at the untouched key
"B.Y". -/
theorem get_pos_reads_without_insert_witness :
    (get_pos (runTrades (strategyInit "s" [] []) [⟨"A.X", Direction.LONG, 2⟩]) "B.Y").2
      = runTrades (strategyInit "s" [] []) [⟨"A.X", Direction.LONG, 2⟩] ∧
    dictLookup (runTrades (strategyInit "s" [] []) [⟨"A.X", Direction.LONG, 2⟩]).pos_data "B.Y" = none ∧
    (get_pos (runTrades (strategyInit "s" [] []) [⟨"A.X", Direction.LONG, 2⟩]) "B.Y").1 = 0 :=
  ⟨(get_pos_reads_without_insert (strategyInit "s" [] []) [⟨"A.X", Direction.LONG, 2⟩] "B.Y").1,
   ((get_pos_reads_without_insert (strategyInit "s" [] []) [⟨"A.X", Direction.LONG, 2⟩] "B.Y").2
      rfl).2 (by decide)⟩

/-- vnpy `Exchange` enum: a member is identified by its string `value`
(e.g. `Exchange.BINANCE.value = "BINANCE"`). -/
structure Exchange where
  value : String
deriving DecidableEq, Repr

/-- The creation timestamp a `StopOrder` carries; its content is never
inspected by the code under verification. -/
structure PyDatetime where
  ticks : Nat
deriving DecidableEq, Repr

/-- `StopOrderStatus` (base.py lines 15-18). -/
inductive StopOrderStatus where
  | WAITING
  | CANCELLED
  | TRIGGERED
deriving DecidableEq, Repr

/-- The `StopOrder` dataclass (base.py lines 23-40), including the
`vt_symbol` attribute added by `__post_init__`. -/
structure StopOrder where
  symbol : String
  exchange : Exchange
  direction : Direction
  offset : Offset
  price : Rat
  volume : Rat
  stop_orderid : String
  strategy_name : String
  datetime : PyDatetime
  vt_orderids : List String
  status : StopOrderStatus
  reason : String
  vt_symbol : String
deriving DecidableEq, Repr

/-- Constructing a `StopOrder` with the non-defaulted dataclass fields:
the defaults fill `vt_orderids` from a fresh empty list
(`field(default_factory=list)`), `status` with `WAITING` and `reason`
with `""`, and `__post_init__` (base.py lines 38-40) then derives
`vt_symbol = f"{symbol}.{exchange.value}"`. -/
def mkStopOrder (symbol : String) (exchange : Exchange) (direction : Direction)
    (offset : Offset) (price volume : Rat) (stop_orderid strategy_name : String)
    (dt : PyDatetime) : StopOrder :=
  { symbol := symbol
    exchange := exchange
    direction := direction
    offset := offset
    price := price
    volume := volume
    stop_orderid := stop_orderid
    strategy_name := strategy_name
    datetime := dt
    vt_orderids := []
    status := StopOrderStatus.WAITING
    reason := ""
    vt_symbol := symbol ++ "." ++ exchange.value }

/-- C10: every freshly constructed `StopOrder` starts `WAITING`, with an
empty spawned-order list (each construction runs `default_factory`, so
each instance gets its own fresh empty list — a value this model renders
as `[]`), an empty reason, and `vt_symbol` equal to the symbol and the
exchange's identifier value joined by a dot. -/
theorem stop_order_fresh_construction (symbol : String) (exchange : Exchange)
    (direction : Direction) (offset : Offset) (price volume : Rat)
    (stop_orderid strategy_name : String) (dt : PyDatetime) :
    (mkStopOrder symbol exchange direction offset price volume stop_orderid strategy_name dt).status
        = StopOrderStatus.WAITING ∧
    (mkStopOrder symbol exchange direction offset price volume stop_orderid strategy_name dt).vt_orderids
        = [] ∧
    (mkStopOrder symbol exchange direction offset price volume stop_orderid strategy_name dt).reason
        = "" ∧
    (mkStopOrder symbol exchange direction offset price volume stop_orderid strategy_name dt).vt_symbol
        = symbol ++ "." ++ exchange.value :=
  ⟨rfl, rfl, rfl, rfl⟩

/-- Modelled from the spec: the conditional-order manager that drives a
`StopOrder` through its lifecycle is engine-side code absent from the
inspected sources (spec §4.2 describes it; src/ holds only the status
enum and the dataclass).  One market-data step: for a `WAITING` stop
order whose trigger condition the current price meets (buy-stop:
price ≥ trigger; sell-stop: price ≤ trigger), set the status to
`TRIGGERED`; any other order is left untouched. -/
def cross_stop_order (o : StopOrder) (price : Rat) : StopOrder :=
  if o.status = StopOrderStatus.WAITING ∧
      ((o.direction = Direction.LONG ∧ o.price ≤ price) ∨
       (o.direction = Direction.SHORT ∧ price ≤ o.price)) then
    { o with status := StopOrderStatus.TRIGGERED }
  else o

/-- Feed a sequence of prices through the trigger check. -/
def runPrices (o : StopOrder) (ps : List Rat) : StopOrder :=
  ps.foldl cross_stop_order o

/-- The statuses the order passes through after each price of the feed. -/
def statusesAfter : StopOrder → List Rat → List StopOrderStatus
  | _, [] => []
  | o, p :: ps => (cross_stop_order o p).status :: statusesAfter (cross_stop_order o p) ps

/-- The full status trace: initial status, then one entry per price. -/
def statusTrace (o : StopOrder) (ps : List Rat) : List StopOrderStatus :=
  o.status :: statusesAfter o ps

/-- Number of transitions into `TRIGGERED` along a status trace. -/
def triggerFlips : List StopOrderStatus → Nat
  | a :: b :: rest =>
      (if a ≠ StopOrderStatus.TRIGGERED ∧ b = StopOrderStatus.TRIGGERED then 1 else 0) +
        triggerFlips (b :: rest)
  | _ => 0

theorem cross_stop_order_nonwaiting (o : StopOrder) (p : Rat)
    (h : o.status ≠ StopOrderStatus.WAITING) : cross_stop_order o p = o := by
  unfold cross_stop_order
  exact if_neg (fun hc => h hc.1)

theorem runPrices_nonwaiting (o : StopOrder) (ps : List Rat)
    (h : o.status ≠ StopOrderStatus.WAITING) : runPrices o ps = o := by
  induction ps with
  | nil => rfl
  | cons p ps ih =>
      show runPrices (cross_stop_order o p) ps = o
      rw [cross_stop_order_nonwaiting o p h]
      exact ih

theorem statusTrace_nonwaiting (o : StopOrder) (ps : List Rat)
    (h : o.status ≠ StopOrderStatus.WAITING) :
    statusTrace o ps = List.replicate (ps.length + 1) o.status := by
  induction ps with
  | nil => rfl
  | cons p ps ih =>
      show o.status :: (cross_stop_order o p).status ::
          statusesAfter (cross_stop_order o p) ps = _
      rw [cross_stop_order_nonwaiting o p h]
      have htail : o.status :: statusesAfter o ps =
          o.status :: List.replicate ps.length o.status := by
        have h2 := ih
        rw [List.replicate_succ] at h2
        exact h2
      have htail2 : statusesAfter o ps = List.replicate ps.length o.status :=
        ((List.cons.injEq _ _ _ _).mp htail).2
      simp only [List.length_cons, List.replicate_succ]
      rw [htail2]

theorem triggerFlips_replicate (n : Nat) (x : StopOrderStatus) :
    triggerFlips (List.replicate n x) = 0 := by
  induction n with
  | zero => rfl
  | succ n ih =>
      cases n with
      | zero => rfl
      | succ m =>
          show triggerFlips (x :: x :: List.replicate m x) = 0
          have hrest : triggerFlips (x :: List.replicate m x) = 0 := ih
          unfold triggerFlips
          rw [hrest]
          by_cases hx : x = StopOrderStatus.TRIGGERED <;> simp [hx]

theorem triggerFlips_trace_le_one (ps : List Rat) (o : StopOrder) :
    triggerFlips (statusTrace o ps) ≤ 1 := by
  induction ps generalizing o with
  | nil => exact Nat.zero_le 1
  | cons p ps ih =>
      by_cases hw : o.status = StopOrderStatus.WAITING
      · have hshape : statusTrace o (p :: ps) =
            o.status :: statusTrace (cross_stop_order o p) ps := rfl
        rw [hshape]
        have hunf : triggerFlips (o.status :: statusTrace (cross_stop_order o p) ps) =
            (if o.status ≠ StopOrderStatus.TRIGGERED ∧
                (cross_stop_order o p).status = StopOrderStatus.TRIGGERED then 1 else 0) +
              triggerFlips (statusTrace (cross_stop_order o p) ps) := rfl
        rw [hunf]
        by_cases ht : (cross_stop_order o p).status = StopOrderStatus.TRIGGERED
        · have hind : (if o.status ≠ StopOrderStatus.TRIGGERED ∧
              (cross_stop_order o p).status = StopOrderStatus.TRIGGERED then 1 else 0) ≤ 1 := by
            split <;> omega
          have hrest : triggerFlips (statusTrace (cross_stop_order o p) ps) = 0 := by
            rw [statusTrace_nonwaiting (cross_stop_order o p) ps (by rw [ht]; intro hc; cases hc)]
            exact triggerFlips_replicate _ _
          omega
        · have hind : (if o.status ≠ StopOrderStatus.TRIGGERED ∧
              (cross_stop_order o p).status = StopOrderStatus.TRIGGERED then 1 else 0) = 0 := by
            simp [ht]
          rw [hind]
          simpa using ih (cross_stop_order o p)
      · rw [statusTrace_nonwaiting o (p :: ps) hw]
        rw [triggerFlips_replicate]
        exact Nat.zero_le 1

/-- C6 (spec-modelled trigger step): a `CANCELLED` stop order is inert —
no price feed ever changes it, in particular it never becomes
`TRIGGERED`; a `TRIGGERED` stop order likewise admits no further
transition; and along any price feed the status flips into `TRIGGERED`
at most once. -/
theorem stop_order_triggers_at_most_once (o : StopOrder) (ps : List Rat) :
    (o.status = StopOrderStatus.CANCELLED → runPrices o ps = o) ∧
    (o.status = StopOrderStatus.TRIGGERED → runPrices o ps = o) ∧
    triggerFlips (statusTrace o ps) ≤ 1 := by
  refine ⟨fun h => runPrices_nonwaiting o ps (by rw [h]; intro hc; cases hc),
    fun h => runPrices_nonwaiting o ps (by rw [h]; intro hc; cases hc),
    triggerFlips_trace_le_one ps o⟩

/-- Witness for C6: the spec §8 scenario — trigger 100, buy-stop, feed
99 / 101 / 102 — for the at-most-once bound, and the same order
cancelled for the cancelled-is-inert conjunct. -/
theorem stop_order_triggers_at_most_once_witness :
    ({ mkStopOrder "BTCUSDT" ⟨"BINANCE"⟩ Direction.LONG Offset.OPEN 100 1 "STOP.1" "s" ⟨0⟩ with
        status := StopOrderStatus.CANCELLED } : StopOrder).status = StopOrderStatus.CANCELLED ∧
    runPrices { mkStopOrder "BTCUSDT" ⟨"BINANCE"⟩ Direction.LONG Offset.OPEN 100 1 "STOP.1" "s" ⟨0⟩ with
        status := StopOrderStatus.CANCELLED } [99, 101, 102]
      = { mkStopOrder "BTCUSDT" ⟨"BINANCE"⟩ Direction.LONG Offset.OPEN 100 1 "STOP.1" "s" ⟨0⟩ with
        status := StopOrderStatus.CANCELLED } ∧
    triggerFlips (statusTrace
      (mkStopOrder "BTCUSDT" ⟨"BINANCE"⟩ Direction.LONG Offset.OPEN 100 1 "STOP.1" "s" ⟨0⟩)
      [99, 101, 102]) ≤ 1 :=
  ⟨rfl,
   (stop_order_triggers_at_most_once
      { mkStopOrder "BTCUSDT" ⟨"BINANCE"⟩ Direction.LONG Offset.OPEN 100 1 "STOP.1" "s" ⟨0⟩ with
        status := StopOrderStatus.CANCELLED } [99, 101, 102]).1 rfl,
   (stop_order_triggers_at_most_once
      (mkStopOrder "BTCUSDT" ⟨"BINANCE"⟩ Direction.LONG Offset.OPEN 100 1 "STOP.1" "s" ⟨0⟩)
      [99, 101, 102]).2.2⟩
